import Mathlib

/-!
# Dockerized-Service: the Basic-Auth gate, the route table and the health probe

A shallow embedding of `src/app.js` and `src/healthcheck.js`.

* `process.env` is read through the three variables the handlers use; an unset
  variable is `none` (JavaScript `undefined`), a set one is `some s`.
* The Express response object is the record `Res`; `res.set`, `res.status` and
  `res.json` are state-passing functions on it.
* A middleware either calls `next()` or writes the response: `Step`.
* `new Date().toISOString()` is an input (`now`), the rendered timestamp.
* Texts are sequences of Unicode scalar values; bytes are natural numbers below 256.
* Express and `basic-auth` are packages outside the repository. The middleware
  `authenticate` takes the header parser as a parameter; the route matching and the parser
  used for the header round trip are modelled from the spec and marked as such.
* The `console.log` / `console.error` calls write no response state and are left out.
-/

namespace DockerizedService

/-! ## Data model -/

/-- The JSON values that the handlers of `app.js` put in a response body. -/
inductive JsonValue where
  | str (s : String)
  | bool (b : Bool)
  | strings (xs : List String)
  deriving DecidableEq, Repr

/-- A JSON object literal, fields in source order. -/
abbrev JsonObject := List (String × JsonValue)

/-- The part of `process.env` that `app.js` reads while serving a request. -/
structure Env where
  APP_USERNAME : Option String
  APP_PASSWORD : Option String
  SECRET_MESSAGE : Option String
  deriving DecidableEq, Repr

/-- The object returned by `basicAuth(req)` when a header was parsed. -/
structure Credentials where
  name : String
  pass : String
  deriving DecidableEq, Repr

/-- An incoming request: method, path and the `Authorization` header if present. -/
structure Request where
  method : String
  path : String
  authorization : Option String
  deriving DecidableEq, Repr

/-- The Express response object: status code, headers set so far, JSON body once sent. -/
structure Res where
  statusCode : Nat
  headers : List (String × String)
  body : Option JsonObject
  deriving DecidableEq, Repr

/-- A response object as Express hands it to the first handler: status 200, nothing written. -/
def Res.fresh : Res := ⟨200, [], none⟩

/-- The call `res.set(field, value)`: replaces the header of that name. -/
def Res.set (res : Res) (field value : String) : Res :=
  { res with headers := res.headers.filter (fun h => h.1 != field) ++ [(field, value)] }

/-- The call `res.status(code)`. -/
def Res.status (res : Res) (code : Nat) : Res :=
  { res with statusCode := code }

/-- The call `res.json(obj)`: sends `obj` as the body. -/
def Res.json (res : Res) (obj : JsonObject) : Res :=
  { res with body := some obj }

/-- Field lookup in the body that was sent, if any. -/
def Res.field (res : Res) (key : String) : Option JsonValue :=
  match res.body with
  | none => none
  | some obj => obj.lookup key

/-- Header lookup. -/
def Res.header (res : Res) (field : String) : Option String :=
  res.headers.lookup field

/-- What a middleware did with the request: called `next()` or wrote the response. -/
inductive Step where
  | next (res : Res)
  | sent (res : Res)
  deriving DecidableEq, Repr

/-- Whether the middleware wrote the response instead of calling `next()`. -/
def Step.isSent : Step → Bool
  | Step.sent _ => true
  | Step.next _ => false

/-- The JavaScript expression `x || d` for an environment variable `x`:
`undefined` and the empty string are falsy. -/
def orDefault (x : Option String) (d : String) : String :=
  match x with
  | none => d
  | some s => if s = "" then d else s

/-! ## `app.js`: the authentication middleware -/

/-- The 401 branch of `authenticate` (lines 21-24): challenge header, status, body. -/
def unauthorized (res : Res) : Res :=
  ((res.set "WWW-Authenticate" "Basic realm=\"Secret Area\"").status 401).json
    [("error", JsonValue.str "Authentication required. Please provide valid credentials.")]

/-- The middleware `authenticate` (lines 9-28). `basicAuth` is the header parser of the
`basic-auth` package, taken as a parameter. `credentials.name !== process.env.APP_USERNAME`
compares a string with a string or with `undefined`. -/
def authenticate (basicAuth : Request → Option Credentials) (env : Env)
    (req : Request) (res : Res) : Step :=
  match basicAuth req with
  | none => Step.sent (unauthorized res)
  | some credentials =>
    if some credentials.name != env.APP_USERNAME
        || some credentials.pass != env.APP_PASSWORD then
      Step.sent (unauthorized res)
    else
      Step.next res

/-! ## `app.js`: the route handlers -/

/-- Handler of `app.get('/')` (lines 31-37). -/
def publicHandler (now : String) (res : Res) : Step :=
  Step.sent (res.json
    [("message", JsonValue.str "Hello, world!"),
     ("timestamp", JsonValue.str now),
     ("status", JsonValue.str "running")])

/-- Handler of `app.get('/secret')` after the gate (lines 40-47). -/
def secretHandler (env : Env) (now : String) (res : Res) : Step :=
  let secretMessage := orDefault env.SECRET_MESSAGE "Default secret message"
  Step.sent (res.json
    [("message", JsonValue.str secretMessage),
     ("timestamp", JsonValue.str now),
     ("authenticated", JsonValue.bool true)])

/-- Handler of `app.use('*')` (lines 50-55). -/
def notFoundHandler (res : Res) : Step :=
  Step.sent ((res.status 404).json
    [("error", JsonValue.str "Route not found"),
     ("availableRoutes", JsonValue.strings ["/", "/secret"])])

/-- The error-handling middleware `app.use((err, req, res, next) => ...)` (lines 58-63),
which Express calls with the response object when a handler raises. -/
def errorHandler (res : Res) : Res :=
  (res.status 500).json [("error", JsonValue.str "Internal server error")]

/-! ## `app.js`: the route table and its dispatch -/

/-- The functions registered on the application, by name. -/
inductive HandlerId where
  | publicRoute
  | authenticate
  | secretRoute
  | notFound
  deriving DecidableEq, Repr

/-- One registration on the application: `app.get(path, ...chain)` has a method and a path,
`app.use('*', h)` has neither restriction. -/
structure Layer where
  method : Option String
  path : Option String
  chain : List HandlerId
  deriving DecidableEq, Repr

/-- The registrations of `app.js` in source order (lines 31, 40, 50). -/
def routeTable : List Layer :=
  [ ⟨some "GET", some "/", [HandlerId.publicRoute]⟩,
    ⟨some "GET", some "/secret", [HandlerId.authenticate, HandlerId.secretRoute]⟩,
    ⟨none, none, [HandlerId.notFound]⟩ ]

/-- Runs the function registered under a name. -/
def runHandler (basicAuth : Request → Option Credentials) (env : Env) (now : String)
    (req : Request) (res : Res) : HandlerId → Step
  | HandlerId.publicRoute => publicHandler now res
  | HandlerId.authenticate => authenticate basicAuth env req res
  | HandlerId.secretRoute => secretHandler env now res
  | HandlerId.notFound => notFoundHandler res

/-- Modelled from the spec: the route matching of the Express router, which is not part of
the repository. A registration matches a request when its method, if it has one, is the
request's method and its path, if it has one, is exactly the request's path ("exact-path
matches", "method mismatch on a known path is treated as falling through"). -/
def Layer.matches (l : Layer) (req : Request) : Bool :=
  (match l.method with
   | none => true
   | some m => m == req.method) &&
  (match l.path with
   | none => true
   | some p => p == req.path)

/-- The result of serving one request: the handlers that ran, in order, and the response. -/
structure Outcome where
  trace : List HandlerId
  res : Res
  deriving DecidableEq, Repr

/-- Runs the handlers of one registration in order until one writes the response. -/
def runChain (basicAuth : Request → Option Credentials) (env : Env) (now : String)
    (req : Request) : List HandlerId → List HandlerId → Res → List HandlerId × Step
  | [], trace, res => (trace, Step.next res)
  | h :: rest, trace, res =>
    match runHandler basicAuth env now req res h with
    | Step.sent r => (trace ++ [h], Step.sent r)
    | Step.next r => runChain basicAuth env now req rest (trace ++ [h]) r

/-- Modelled from the spec: the dispatch loop of the Express router, which is not part of
the repository. Registrations are tried in insertion order; a matching one runs its chain;
when the chain ends with `next()` the following registrations are tried. When nothing
answers, the framework's default 404 without a JSON body is sent. -/
def dispatch (basicAuth : Request → Option Credentials) (env : Env) (now : String)
    (req : Request) : List Layer → List HandlerId → Res → Outcome
  | [], trace, res => ⟨trace, res.status 404⟩
  | l :: rest, trace, res =>
    if l.matches req then
      match runChain basicAuth env now req l.chain trace res with
      | (trace', Step.sent r) => ⟨trace', r⟩
      | (trace', Step.next r) => dispatch basicAuth env now req rest trace' r
    else
      dispatch basicAuth env now req rest trace res

/-- The application of `app.js` serving one request. -/
def app (basicAuth : Request → Option Credentials) (env : Env) (now : String)
    (req : Request) : Outcome :=
  dispatch basicAuth env now req routeTable [] Res.fresh

/-! ## The `Authorization` header: how `test.js` builds it and how it is parsed -/

/-- UTF-8 bytes of one character, as `Buffer.from(string)` produces them. -/
def utf8EncodeChar (c : Char) : List Nat :=
  let v := c.toNat
  if v < 0x80 then [v]
  else if v < 0x800 then [0xC0 + v / 64, 0x80 + v % 64]
  else if v < 0x10000 then [0xE0 + v / 4096, 0x80 + v / 64 % 64, 0x80 + v % 64]
  else [0xF0 + v / 262144, 0x80 + v / 4096 % 64, 0x80 + v / 64 % 64, 0x80 + v % 64]

/-- UTF-8 bytes of a text. -/
def utf8Encode : List Char → List Nat
  | [] => []
  | c :: cs => utf8EncodeChar c ++ utf8Encode cs

/-- The base64 alphabet. -/
def base64Alphabet : List Char :=
  "ABCDEFGHIJKLMNOPQRSTUVWXYZabcdefghijklmnopqrstuvwxyz0123456789+/".toList

/-- The base64 digit of a six-bit value. -/
def base64Char (n : Nat) : Char :=
  base64Alphabet.getD n 'A'

/-- The six-bit value of a base64 digit; `none` for any other character. -/
def base64Value (c : Char) : Option Nat :=
  let i := base64Alphabet.indexOf c
  if i < 64 then some i else none

/-- Base64 text of a byte sequence with `=` padding, as `buffer.toString('base64')`. -/
def base64Encode : List Nat → List Char
  | [] => []
  | [a] => [base64Char (a / 4), base64Char (a % 4 * 16), '=', '=']
  | [a, b] =>
    [base64Char (a / 4), base64Char (a % 4 * 16 + b / 16), base64Char (b % 16 * 4), '=']
  | a :: b :: c :: rest =>
    base64Char (a / 4) :: base64Char (a % 4 * 16 + b / 16) ::
      base64Char (b % 16 * 4 + c / 64) :: base64Char (c % 64) :: base64Encode rest

/-- The `Authorization` header that `runTest` of `test.js` sends (lines 15-20):
`Basic ` followed by the base64 text of the UTF-8 bytes of `username:password`. -/
def authorizationHeader (username password : String) : String :=
  String.mk ("Basic ".toList ++
    base64Encode (utf8Encode (username.toList ++ ':' :: password.toList)))

/-- Modelled from the spec: the base64 decoding done by the `basic-auth` package, which is
not part of the repository. Groups of four digits give three bytes; the last group may end
in one or two `=`; anything else is malformed ("malformed base64"). -/
def base64Decode : List Char → Option (List Nat)
  | [] => some []
  | c1 :: c2 :: c3 :: c4 :: rest =>
    match base64Value c1, base64Value c2 with
    | some s1, some s2 =>
      if c4 = '=' then
        if rest = [] then
          if c3 = '=' then some [s1 * 4 + s2 / 16]
          else
            match base64Value c3 with
            | some s3 => some [s1 * 4 + s2 / 16, s2 % 16 * 16 + s3 / 4]
            | none => none
        else none
      else
        match base64Value c3, base64Value c4, base64Decode rest with
        | some s3, some s4, some bytes =>
          some ((s1 * 4 + s2 / 16) :: (s2 % 16 * 16 + s3 / 4) :: (s3 % 4 * 64 + s4) :: bytes)
        | _, _, _ => none
    | _, _ => none
  | _ => none

/-- The character U+FFFD that a decoder puts in place of an invalid byte sequence. -/
def replacementChar : Char := Char.ofNat 0xFFFD

/-- The character of a decoded code point; U+FFFD when it is not a scalar value. -/
def charOfCode (n : Nat) : Char :=
  if n.isValidChar then Char.ofNat n else replacementChar

/-- State of the UTF-8 decoder: text decoded so far, continuation bytes still expected,
and the bits of the code point being read. -/
structure Utf8State where
  out : List Char
  need : Nat
  acc : Nat
  deriving DecidableEq, Repr

/-- The decoder reading a byte at the start of a character. -/
def utf8Lead (out : List Char) (b : Nat) : Utf8State :=
  if b < 0x80 then ⟨out ++ [charOfCode b], 0, 0⟩
  else if 0xC0 ≤ b ∧ b < 0xE0 then ⟨out, 1, b - 0xC0⟩
  else if 0xE0 ≤ b ∧ b < 0xF0 then ⟨out, 2, b - 0xE0⟩
  else if 0xF0 ≤ b ∧ b < 0xF8 then ⟨out, 3, b - 0xF0⟩
  else ⟨out ++ [replacementChar], 0, 0⟩

/-- The decoder reading one byte. -/
def utf8Step (s : Utf8State) (b : Nat) : Utf8State :=
  if s.need = 0 then utf8Lead s.out b
  else if 0x80 ≤ b ∧ b < 0xC0 then
    if s.need = 1 then ⟨s.out ++ [charOfCode (s.acc * 64 + (b - 0x80))], 0, 0⟩
    else ⟨s.out, s.need - 1, s.acc * 64 + (b - 0x80)⟩
  else utf8Lead (s.out ++ [replacementChar]) b

/-- Modelled from the spec: the text of the decoded payload, as the `basic-auth` package
(not part of the repository) obtains it from the decoded bytes; invalid sequences give
U+FFFD. -/
def utf8Decode (bytes : List Nat) : List Char :=
  let s := bytes.foldl utf8Step ⟨[], 0, 0⟩
  if s.need = 0 then s.out else s.out ++ [replacementChar]

/-- Splits `name:pass` at the first colon; `none` when there is no colon. -/
def splitFirstColon : List Char → Option (List Char × List Char)
  | [] => none
  | c :: rest =>
    if c = ':' then some ([], rest)
    else
      match splitFirstColon rest with
      | none => none
      | some (name, pass) => some (c :: name, pass)

/-- Modelled from the spec: the function `basicAuth` of the `basic-auth` package, which is
not part of the repository. It reads the `Authorization` header, accepts only the `Basic`
scheme, decodes the base64 payload and splits it as `name:pass` at the first colon; the
credentials are absent when the header is missing or malformed. -/
def basicAuth (req : Request) : Option Credentials :=
  match req.authorization with
  | none => none
  | some header =>
    if header.toList.take 6 = "Basic ".toList then
      match base64Decode (header.toList.drop 6) with
      | none => none
      | some bytes =>
        match splitFirstColon (utf8Decode bytes) with
        | none => none
        | some (name, pass) => some ⟨String.mk name, String.mk pass⟩
    else none

/-! ## `healthcheck.js` -/

/-- What happens to the single request of the probe: the response callback fires with a
status code, or the `error` event, or the `timeout` event. -/
inductive ProbeEvent where
  | response (statusCode : Nat)
  | error
  | timeout
  deriving DecidableEq, Repr

/-- The state of the probe process: requests issued so far and the exit code once exited. -/
structure ProbeState where
  requests : Nat
  exitCode : Option Nat
  deriving DecidableEq, Repr

/-- The top level of `healthcheck.js`: builds one request and calls `request.end()`. -/
def ProbeState.start : ProbeState := ⟨1, none⟩

/-- The three callbacks of `healthcheck.js` (lines 11-26); each one calls `process.exit`. -/
def ProbeState.onEvent (s : ProbeState) : ProbeEvent → ProbeState
  | ProbeEvent.response statusCode =>
    if statusCode = 200 then { s with exitCode := some 0 } else { s with exitCode := some 1 }
  | ProbeEvent.error => { s with exitCode := some 1 }
  | ProbeEvent.timeout => { s with exitCode := some 1 }

/-- One run of the probe, given what happens to its request. -/
def healthcheck (e : ProbeEvent) : ProbeState :=
  ProbeState.start.onEvent e

/-! ## Properties used in the statements -/

/-- The envelope invariant of the spec: `message` and `error` are not both present, and a
response with status 200 has a `timestamp`. -/
def envelopeOk (r : Res) : Prop :=
  ¬ (r.field "message" ≠ none ∧ r.field "error" ≠ none) ∧
  (r.statusCode = 200 → r.field "timestamp" ≠ none)

/-- The response of the public route at time `now`. -/
def publicResponse (now : String) : Res :=
  ⟨200, [],
    some [("message", JsonValue.str "Hello, world!"),
          ("timestamp", JsonValue.str now),
          ("status", JsonValue.str "running")]⟩

/-- The response of the fallback route. -/
def notFoundResponse : Res :=
  ⟨404, [],
    some [("error", JsonValue.str "Route not found"),
          ("availableRoutes", JsonValue.strings ["/", "/secret"])]⟩

/-- The response of the gate when it rejects a request to `/secret`. -/
def unauthorizedResponse : Res :=
  ⟨401, [("WWW-Authenticate", "Basic realm=\"Secret Area\"")],
    some [("error",
      JsonValue.str "Authentication required. Please provide valid credentials.")]⟩

/-! ## Lemmas on the dispatch -/

theorem unauthorized_fresh : unauthorized Res.fresh = unauthorizedResponse := by
  decide

theorem authenticate_cases (ba : Request → Option Credentials) (env : Env)
    (req : Request) (res : Res) :
    authenticate ba env req res = Step.next res ∨
      authenticate ba env req res = Step.sent (unauthorized res) := by
  unfold authenticate
  split
  · right; rfl
  · split
    · right; rfl
    · left; rfl

theorem authenticate_next_iff (ba : Request → Option Credentials) (env : Env)
    (req : Request) (res : Res) :
    authenticate ba env req res = Step.next res ↔
      ∃ c, ba req = some c ∧ env.APP_USERNAME = some c.name ∧
        env.APP_PASSWORD = some c.pass := by
  unfold authenticate
  constructor
  · intro h
    split at h
    · cases h
    · rename_i c hc
      split at h
      · cases h
      · rename_i hne
        refine ⟨c, hc, ?_, ?_⟩
        · by_contra hu
          exact hne (by simp [Ne.symm hu])
        · by_contra hp
          exact hne (by simp [Ne.symm hp])
  · rintro ⟨c, hc, hu, hp⟩
    simp [hc, hu, hp]

theorem app_public (ba : Request → Option Credentials) (env : Env) (now : String)
    (req : Request) (hm : req.method = "GET") (hp : req.path = "/") :
    app ba env now req = ⟨[HandlerId.publicRoute], publicResponse now⟩ := by
  simp [app, routeTable, dispatch, Layer.matches, hm, hp, runChain, runHandler,
    publicHandler, publicResponse, Res.fresh, Res.json]

theorem app_secret (ba : Request → Option Credentials) (env : Env) (now : String)
    (req : Request) (hm : req.method = "GET") (hp : req.path = "/secret") :
    app ba env now req =
      match authenticate ba env req Res.fresh with
      | Step.sent r => ⟨[HandlerId.authenticate], r⟩
      | Step.next r =>
        ⟨[HandlerId.authenticate, HandlerId.secretRoute],
          r.json [("message",
              JsonValue.str (orDefault env.SECRET_MESSAGE "Default secret message")),
            ("timestamp", JsonValue.str now),
            ("authenticated", JsonValue.bool true)]⟩ := by
  have h1 : ("/" == "/secret") = false := by decide
  simp only [app, routeTable, dispatch, Layer.matches, hm, hp, runChain, runHandler, h1,
    beq_self_eq_true, Bool.and_false, Bool.and_self, Bool.false_eq_true, if_false, if_true,
    List.nil_append]
  cases authenticate ba env req Res.fresh <;>
    simp [secretHandler, runChain]

theorem app_fallback (ba : Request → Option Credentials) (env : Env) (now : String)
    (req : Request)
    (h : ¬ (req.method = "GET" ∧ (req.path = "/" ∨ req.path = "/secret"))) :
    app ba env now req = ⟨[HandlerId.notFound], notFoundResponse⟩ := by
  have h1 : (("GET" == req.method) && ("/" == req.path)) = false := by
    by_contra hne
    simp only [Bool.not_eq_false, Bool.and_eq_true, beq_iff_eq] at hne
    exact h ⟨hne.1.symm, Or.inl hne.2.symm⟩
  have h2 : (("GET" == req.method) && ("/secret" == req.path)) = false := by
    by_contra hne
    simp only [Bool.not_eq_false, Bool.and_eq_true, beq_iff_eq] at hne
    exact h ⟨hne.1.symm, Or.inr hne.2.symm⟩
  simp [app, routeTable, dispatch, Layer.matches, h1, h2, runChain, runHandler,
    notFoundHandler, notFoundResponse, Res.fresh, Res.json, Res.status]

/-! ## Lemmas on the header codec -/

theorem base64Value_base64Char (n : Nat) (h : n < 64) :
    base64Value (base64Char n) = some n := by
  have key : ∀ i : Fin 64, base64Value (base64Char i.1) = some i.1 := by decide
  exact key ⟨n, h⟩

theorem base64Char_ne_pad (n : Nat) (h : n < 64) : base64Char n ≠ '=' := by
  have key : ∀ i : Fin 64, base64Char i.1 ≠ '=' := by decide
  exact key ⟨n, h⟩

theorem base64Decode_encode (bytes : List Nat) (h : ∀ b ∈ bytes, b < 256) :
    base64Decode (base64Encode bytes) = some bytes := by
  induction bytes using base64Encode.induct with
  | case1 => rfl
  | case2 a =>
    have ha : a < 256 := h a (by simp)
    have v1 := base64Value_base64Char (a / 4) (by omega)
    have v2 := base64Value_base64Char (a % 4 * 16) (by omega)
    have e1 : a / 4 * 4 + a % 4 * 16 / 16 = a := by omega
    simp [base64Encode, base64Decode, v1, v2]
    omega
  | case3 a b =>
    have ha : a < 256 := h a (by simp)
    have hb : b < 256 := h b (by simp)
    have v1 := base64Value_base64Char (a / 4) (by omega)
    have v2 := base64Value_base64Char (a % 4 * 16 + b / 16) (by omega)
    have v3 := base64Value_base64Char (b % 16 * 4) (by omega)
    have n3 := base64Char_ne_pad (b % 16 * 4) (by omega)
    have e1 : a / 4 * 4 + (a % 4 * 16 + b / 16) / 16 = a := by omega
    have e2 : (a % 4 * 16 + b / 16) % 16 * 16 + b % 16 * 4 / 4 = b := by omega
    simp [base64Encode, base64Decode, v1, v2, v3, n3, e1]
    omega
  | case4 a b c rest ih =>
    have ha : a < 256 := h a (by simp)
    have hb : b < 256 := h b (by simp)
    have hc : c < 256 := h c (by simp)
    have hrest : ∀ x ∈ rest, x < 256 := fun x hx => h x (by simp [hx])
    have v1 := base64Value_base64Char (a / 4) (by omega)
    have v2 := base64Value_base64Char (a % 4 * 16 + b / 16) (by omega)
    have v3 := base64Value_base64Char (b % 16 * 4 + c / 64) (by omega)
    have v4 := base64Value_base64Char (c % 64) (by omega)
    have n4 := base64Char_ne_pad (c % 64) (by omega)
    have e1 : a / 4 * 4 + (a % 4 * 16 + b / 16) / 16 = a := by omega
    have e2 : (a % 4 * 16 + b / 16) % 16 * 16 + (b % 16 * 4 + c / 64) / 4 = b := by omega
    have e3 : (b % 16 * 4 + c / 64) % 4 * 64 + c % 64 = c := by omega
    simp [base64Encode, base64Decode, v1, v2, v3, v4, n4, e1, e2, e3, ih hrest]

theorem charOfCode_toNat (c : Char) : charOfCode c.toNat = c := by
  have hv : c.toNat.isValidChar := c.valid
  simp [charOfCode, hv, Char.ofNat_toNat]

theorem utf8EncodeChar_lt (c : Char) : ∀ b ∈ utf8EncodeChar c, b < 256 := by
  have hv : c.toNat.isValidChar := c.valid
  have hlt : c.toNat < 0x110000 := by
    rcases hv with h | h
    · omega
    · exact h.2
  intro b hb
  unfold utf8EncodeChar at hb
  simp only at hb
  split_ifs at hb <;> simp at hb <;> omega

theorem utf8Encode_lt (cs : List Char) : ∀ b ∈ utf8Encode cs, b < 256 := by
  induction cs with
  | nil => intro b hb; simp [utf8Encode] at hb
  | cons c cs ih =>
    intro b hb
    simp only [utf8Encode, List.mem_append] at hb
    rcases hb with hb | hb
    · exact utf8EncodeChar_lt c b hb
    · exact ih b hb

theorem utf8Step_encodeChar (out : List Char) (c : Char) (rest : List Nat) :
    List.foldl utf8Step ⟨out, 0, 0⟩ (utf8EncodeChar c ++ rest) =
      List.foldl utf8Step ⟨out ++ [c], 0, 0⟩ rest := by
  have hv : c.toNat.isValidChar := c.valid
  have hlt : c.toNat < 0x110000 := by
    rcases hv with h | h
    · omega
    · exact h.2
  have hc := charOfCode_toNat c
  unfold utf8EncodeChar
  simp only
  split_ifs with h1 h2 h3
  · simp [utf8Step, utf8Lead, h1, hc]
  · have e : c.toNat / 64 * 64 + c.toNat % 64 = c.toNat := by omega
    have l1 : ¬ (192 + c.toNat / 64 < 128) := by omega
    have l2 : 192 + c.toNat / 64 < 224 := by omega
    have k1 : 128 + c.toNat % 64 < 192 := by omega
    simp [utf8Step, utf8Lead, l1, l2, k1, e, hc]
  · have e : (c.toNat / 4096 * 64 + c.toNat / 64 % 64) * 64 + c.toNat % 64 = c.toNat := by
      omega
    have l1 : ¬ (224 + c.toNat / 4096 < 128) := by omega
    have l2 : ¬ (224 + c.toNat / 4096 < 224) := by omega
    have l3 : 224 + c.toNat / 4096 < 240 := by omega
    have k1 : 128 + c.toNat / 64 % 64 < 192 := by omega
    have k2 : 128 + c.toNat % 64 < 192 := by omega
    simp [utf8Step, utf8Lead, l1, l2, l3, k1, k2, e, hc]
  · have e : ((c.toNat / 262144 * 64 + c.toNat / 4096 % 64) * 64 + c.toNat / 64 % 64) * 64 +
        c.toNat % 64 = c.toNat := by omega
    have l1 : ¬ (240 + c.toNat / 262144 < 128) := by omega
    have l2 : ¬ (240 + c.toNat / 262144 < 224) := by omega
    have l3 : ¬ (240 + c.toNat / 262144 < 240) := by omega
    have l4 : 240 + c.toNat / 262144 < 248 := by omega
    have k1 : 128 + c.toNat / 4096 % 64 < 192 := by omega
    have k2 : 128 + c.toNat / 64 % 64 < 192 := by omega
    have k3 : 128 + c.toNat % 64 < 192 := by omega
    simp [utf8Step, utf8Lead, l1, l2, l3, l4, k1, k2, k3, e, hc]

theorem utf8Step_encode (cs : List Char) (out : List Char) :
    List.foldl utf8Step ⟨out, 0, 0⟩ (utf8Encode cs) = ⟨out ++ cs, 0, 0⟩ := by
  induction cs generalizing out with
  | nil => simp [utf8Encode]
  | cons c cs ih =>
    have h := utf8Step_encodeChar out c (utf8Encode cs)
    simp only [utf8Encode]
    rw [h, ih]
    simp

theorem utf8Decode_encode (cs : List Char) : utf8Decode (utf8Encode cs) = cs := by
  simp [utf8Decode, utf8Step_encode]

theorem splitFirstColon_append (name pass : List Char) (h : ':' ∉ name) :
    splitFirstColon (name ++ ':' :: pass) = some (name, pass) := by
  induction name with
  | nil => simp [splitFirstColon]
  | cons c cs ih =>
    have hc : c ≠ ':' := fun e => h (by simp [e])
    have hcs : ':' ∉ cs := fun e => h (by simp [e])
    simp [splitFirstColon, hc, ih hcs]

theorem basicAuth_authorizationHeader (method path username password : String)
    (h : ':' ∉ username.toList) :
    basicAuth ⟨method, path, some (authorizationHeader username password)⟩ =
      some ⟨username, password⟩ := by
  have hs : "Basic ".toList = ['B', 'a', 's', 'i', 'c', ' '] := rfl
  have hd := base64Decode_encode _
    (utf8Encode_lt (username.toList ++ ':' :: password.toList))
  have hu := utf8Decode_encode (username.toList ++ ':' :: password.toList)
  have hsp := splitFirstColon_append username.toList password.toList h
  simp only [String.toList] at hs hd hu hsp
  simp [basicAuth, authorizationHeader, hs, hd, hu, hsp]

/-! ## Lemmas on strings and headers -/

theorem append_ne_self (a s : String) (hs : s ≠ "") : a ++ s ≠ a := by
  intro h
  have hd := congrArg String.data h
  simp only [String.data_append, List.append_right_eq_self] at hd
  exact hs (String.ext hd)

theorem lookup_filter_ne (field : String) (hs : List (String × String)) :
    List.lookup field (hs.filter (fun h => h.1 != field)) = none := by
  induction hs with
  | nil => rfl
  | cons h t ih =>
    obtain ⟨k, v⟩ := h
    rw [List.filter_cons]
    by_cases e : k = field
    · have e1 : ((k, v).1 != field) = false := by simp [e]
      rw [e1]
      exact ih
    · have e1 : ((k, v).1 != field) = true := by simp [e]
      have e2 : (field == k) = false := by
        simp only [beq_eq_false_iff_ne, ne_eq]
        exact fun x => e x.symm
      rw [e1]
      simp only [if_true, List.lookup, e2]
      exact ih

theorem lookup_append_of_none (field value : String) (hs : List (String × String))
    (h : List.lookup field hs = none) :
    List.lookup field (hs ++ [(field, value)]) = some value := by
  induction hs with
  | nil => simp [List.lookup]
  | cons x t ih =>
    obtain ⟨k, v⟩ := x
    rw [List.cons_append]
    cases hk : (field == k) with
    | true => simp only [List.lookup, hk] at h; cases h
    | false =>
      simp only [List.lookup, hk] at h ⊢
      exact ih h

theorem header_set (res : Res) (field value : String) :
    (res.set field value).header field = some value := by
  unfold Res.header Res.set
  exact lookup_append_of_none field value _ (lookup_filter_ne field res.headers)

/-! ## The claims -/

/-- C1: the middleware `authenticate` forwards the request (calls `next` and leaves the
response object as it was) if and only if credentials were parsed and their `name` and
`pass` are equal, as whole strings, to the expected username and password; in every other
case it writes the 401 response. In particular parsed credentials whose name or password
is a proper prefix or a proper extension of the expected value are rejected. -/
theorem authenticate_forwards_iff_exact_match (ba : Request → Option Credentials)
    (env : Env) (req : Request) (res : Res) :
    (authenticate ba env req res = Step.next res ↔
      ∃ c, ba req = some c ∧ env.APP_USERNAME = some c.name ∧
        env.APP_PASSWORD = some c.pass) ∧
    (authenticate ba env req res ≠ Step.next res →
      authenticate ba env req res = Step.sent (unauthorized res)) ∧
    (∀ c s, ba req = some c → s ≠ "" →
      (env.APP_USERNAME = some (c.name ++ s) ∨ env.APP_PASSWORD = some (c.pass ++ s) ∨
        (∃ u, env.APP_USERNAME = some u ∧ c.name = u ++ s) ∨
        (∃ p, env.APP_PASSWORD = some p ∧ c.pass = p ++ s)) →
      authenticate ba env req res = Step.sent (unauthorized res)) := by
  refine ⟨authenticate_next_iff ba env req res, ?_, ?_⟩
  · intro hne
    rcases authenticate_cases ba env req res with h | h
    · exact absurd h hne
    · exact h
  · intro c s hc hs hcase
    rcases authenticate_cases ba env req res with h | h
    · exfalso
      obtain ⟨c', hc', hu, hp⟩ := (authenticate_next_iff ba env req res).1 h
      rw [hc] at hc'
      cases hc'
      rcases hcase with h1 | h1 | ⟨u, h1, h2⟩ | ⟨p, h1, h2⟩
      · rw [hu] at h1
        exact append_ne_self c.name s hs (Option.some.inj h1).symm
      · rw [hp] at h1
        exact append_ne_self c.pass s hs (Option.some.inj h1).symm
      · rw [hu] at h1
        have e : c.name = u := Option.some.inj h1
        rw [← e] at h2
        exact append_ne_self c.name s hs h2.symm
      · rw [hp] at h1
        have e : c.pass = p := Option.some.inj h1
        rw [← e] at h2
        exact append_ne_self c.pass s hs h2.symm
    · exact h

/-- C2: whenever the gate rejects, whatever the parser returned and whatever the
configuration, it writes status 401, the header `WWW-Authenticate` with the value
`Basic realm="Secret Area"` and a body whose only field is `error`, whose text begins with
"Authentication required"; two rejected GET requests to `/secret` get the same status,
headers and body. -/
theorem rejection_response_uniform (ba₁ ba₂ : Request → Option Credentials)
    (env₁ env₂ : Env) (now₁ now₂ : String) (req₁ req₂ : Request)
    (hm₁ : req₁.method = "GET") (hp₁ : req₁.path = "/secret")
    (hm₂ : req₂.method = "GET") (hp₂ : req₂.path = "/secret")
    (hr₁ : (authenticate ba₁ env₁ req₁ Res.fresh).isSent = true)
    (hr₂ : (authenticate ba₂ env₂ req₂ Res.fresh).isSent = true) :
    (app ba₁ env₁ now₁ req₁).res = (app ba₂ env₂ now₂ req₂).res ∧
    (app ba₁ env₁ now₁ req₁).res.statusCode = 401 ∧
    (app ba₁ env₁ now₁ req₁).res.headers =
      [("WWW-Authenticate", "Basic realm=\"Secret Area\"")] ∧
    (app ba₁ env₁ now₁ req₁).res.body =
      some [("error",
        JsonValue.str "Authentication required. Please provide valid credentials.")] ∧
    "Authentication required. Please provide valid credentials." =
      "Authentication required" ++ ". Please provide valid credentials." ∧
    (∀ res : Res, (authenticate ba₁ env₁ req₁ res).isSent = true →
      authenticate ba₁ env₁ req₁ res = Step.sent (unauthorized res) ∧
      (unauthorized res).statusCode = 401 ∧
      (unauthorized res).header "WWW-Authenticate" = some "Basic realm=\"Secret Area\"" ∧
      (unauthorized res).body =
        some [("error",
          JsonValue.str "Authentication required. Please provide valid credentials.")]) := by
  have key : ∀ (ba : Request → Option Credentials) (env : Env) (now : String)
      (req : Request), req.method = "GET" → req.path = "/secret" →
      (authenticate ba env req Res.fresh).isSent = true →
      (app ba env now req).res = unauthorizedResponse := by
    intro ba env now req hm hp hr
    rw [app_secret ba env now req hm hp]
    rcases authenticate_cases ba env req Res.fresh with h | h
    · rw [h] at hr
      cases hr
    · rw [h, unauthorized_fresh]
  have k₁ := key ba₁ env₁ now₁ req₁ hm₁ hp₁ hr₁
  have k₂ := key ba₂ env₂ now₂ req₂ hm₂ hp₂ hr₂
  refine ⟨by rw [k₁, k₂], by rw [k₁]; rfl, by rw [k₁]; rfl, by rw [k₁]; rfl, by decide, ?_⟩
  intro res hres
  refine ⟨?_, rfl, ?_, rfl⟩
  · rcases authenticate_cases ba₁ env₁ req₁ res with h | h
    · rw [h] at hres
      cases hres
    · exact h
  · exact header_set res "WWW-Authenticate" "Basic realm=\"Secret Area\""

/-- Witness of C2: a request without header and a request with a wrong password. -/
theorem rejection_response_uniform_witness :
    (app basicAuth ⟨some "admin", some "pw", none⟩ "t1" ⟨"GET", "/secret", none⟩).res =
      (app basicAuth ⟨some "admin", some "pw", none⟩ "t2"
        ⟨"GET", "/secret", some (authorizationHeader "admin" "pwx")⟩).res ∧
    (app basicAuth ⟨some "admin", some "pw", none⟩ "t1"
      ⟨"GET", "/secret", none⟩).res.statusCode = 401 :=
  have h := rejection_response_uniform basicAuth basicAuth
    ⟨some "admin", some "pw", none⟩ ⟨some "admin", some "pw", none⟩ "t1" "t2"
    ⟨"GET", "/secret", none⟩ ⟨"GET", "/secret", some (authorizationHeader "admin" "pwx")⟩
    rfl rfl rfl rfl (by decide) (by decide)
  ⟨h.1, h.2.1⟩

/-- C3 as stated fails: with `SECRET_MESSAGE` set to the empty text and the configured
credentials sent, the `message` of the response is not the configured text. -/
theorem secret_message_is_configured_text_counterexample :
    ¬ (∀ (env : Env) (secret now : String) (req : Request) (c : Credentials),
      env.SECRET_MESSAGE = some secret → req.method = "GET" → req.path = "/secret" →
      basicAuth req = some c → env.APP_USERNAME = some c.name →
      env.APP_PASSWORD = some c.pass →
      (app basicAuth env now req).res.field "message" = some (JsonValue.str secret)) := by
  intro h
  have h0 := h ⟨some "admin", some "pw", some ""⟩ "" "t"
    ⟨"GET", "/secret", some "Basic YWRtaW46cHc="⟩ ⟨"admin", "pw"⟩
    rfl rfl rfl (by decide) rfl rfl
  revert h0
  decide

/-- C3, amended: for every configuration and every GET request to `/secret` whose parsed
credentials are the configured username and password, the response has status 200 and the
body `message`, `timestamp`, `authenticated: true`, where `message` is the configured secret
text when that is set and not empty, and "Default secret message" when it is unset or
empty; and when the gate rejects a GET request to `/secret`, the secret handler is not run
and the secret text never reaches the response: only the gate runs, the response is exactly
the gate's fixed 401 (status, challenge header and `error`-only body), it has no `message`
field, and it is the same whatever `SECRET_MESSAGE` is. -/
theorem secret_route_response (ba : Request → Option Credentials) (env : Env)
    (now : String) (req : Request) (hm : req.method = "GET") (hp : req.path = "/secret") :
    (∀ c, ba req = some c → env.APP_USERNAME = some c.name →
      env.APP_PASSWORD = some c.pass →
      app ba env now req =
        ⟨[HandlerId.authenticate, HandlerId.secretRoute],
          ⟨200, [],
            some [("message",
                JsonValue.str (orDefault env.SECRET_MESSAGE "Default secret message")),
              ("timestamp", JsonValue.str now),
              ("authenticated", JsonValue.bool true)]⟩⟩ ∧
      (∀ s, env.SECRET_MESSAGE = some s → s ≠ "" →
        orDefault env.SECRET_MESSAGE "Default secret message" = s) ∧
      (env.SECRET_MESSAGE = none ∨ env.SECRET_MESSAGE = some "" →
        orDefault env.SECRET_MESSAGE "Default secret message" = "Default secret message")) ∧
    ((authenticate ba env req Res.fresh).isSent = true →
      (app ba env now req).trace = [HandlerId.authenticate] ∧
      HandlerId.secretRoute ∉ (app ba env now req).trace ∧
      (app ba env now req).res =
        ⟨401, [("WWW-Authenticate", "Basic realm=\"Secret Area\"")],
          some [("error",
            JsonValue.str "Authentication required. Please provide valid credentials.")]⟩ ∧
      (app ba env now req).res.statusCode = 401 ∧
      (app ba env now req).res.field "message" = none ∧
      (∀ secret : Option String,
        app ba ⟨env.APP_USERNAME, env.APP_PASSWORD, secret⟩ now req =
          ⟨[HandlerId.authenticate],
            ⟨401, [("WWW-Authenticate", "Basic realm=\"Secret Area\"")],
              some [("error",
                JsonValue.str
                  "Authentication required. Please provide valid credentials.")]⟩⟩)) := by
  constructor
  · intro c hc hu hpw
    have hn : authenticate ba env req Res.fresh = Step.next Res.fresh :=
      (authenticate_next_iff ba env req Res.fresh).2 ⟨c, hc, hu, hpw⟩
    refine ⟨?_, ?_, ?_⟩
    · rw [app_secret ba env now req hm hp, hn]
      rfl
    · intro s hs hne
      simp [orDefault, hs, hne]
    · rintro (h | h) <;> simp [orDefault, h]
  · intro hr
    have hs : authenticate ba env req Res.fresh = Step.sent (unauthorized Res.fresh) := by
      rcases authenticate_cases ba env req Res.fresh with h | h
      · rw [h] at hr
        cases hr
      · exact h
    have hrej : app ba env now req = ⟨[HandlerId.authenticate], unauthorizedResponse⟩ := by
      rw [app_secret ba env now req hm hp, hs, unauthorized_fresh]
    have hany : ∀ secret : Option String,
        app ba ⟨env.APP_USERNAME, env.APP_PASSWORD, secret⟩ now req =
          ⟨[HandlerId.authenticate], unauthorizedResponse⟩ := by
      intro secret
      have hs' : authenticate ba ⟨env.APP_USERNAME, env.APP_PASSWORD, secret⟩ req
          Res.fresh = Step.sent (unauthorized Res.fresh) := hs
      rw [app_secret ba _ now req hm hp, hs', unauthorized_fresh]
    rw [hrej]
    exact ⟨rfl, by simp, rfl, rfl, by decide, hany⟩

/-- Witness of C3: the configured pair `admin` / `pw` with a configured secret text is
answered with that text, and a wrong password is answered with the fixed 401. -/
theorem secret_route_response_witness :
    (app basicAuth ⟨some "admin", some "pw", some "top secret"⟩ "t"
      ⟨"GET", "/secret", some "Basic YWRtaW46cHc="⟩).res.field "message" =
        some (JsonValue.str "top secret") ∧
    (app basicAuth ⟨some "admin", some "pw", some "top secret"⟩ "t"
      ⟨"GET", "/secret", some (authorizationHeader "admin" "pwx")⟩).res =
        ⟨401, [("WWW-Authenticate", "Basic realm=\"Secret Area\"")],
          some [("error",
            JsonValue.str "Authentication required. Please provide valid credentials.")]⟩ := by
  have h := (secret_route_response basicAuth ⟨some "admin", some "pw", some "top secret"⟩
    "t" ⟨"GET", "/secret", some "Basic YWRtaW46cHc="⟩ rfl rfl).1 ⟨"admin", "pw"⟩
    (by decide) rfl rfl
  have h2 := (secret_route_response basicAuth ⟨some "admin", some "pw", some "top secret"⟩
    "t" ⟨"GET", "/secret", some (authorizationHeader "admin" "pwx")⟩ rfl rfl).2 (by decide)
  refine ⟨?_, h2.2.2.1⟩
  rw [h.1]
  decide

/-- C4: a request whose path is neither `/` nor `/secret`, whatever its method and
headers, gets status 404 with `error` "Route not found" and `availableRoutes` equal to the
list `/`, `/secret`; only the fallback handler runs. -/
theorem unknown_path_not_found (ba : Request → Option Credentials) (env : Env)
    (now : String) (req : Request) (h1 : req.path ≠ "/") (h2 : req.path ≠ "/secret") :
    (app ba env now req).res.statusCode = 404 ∧
    (app ba env now req).res.body =
      some [("error", JsonValue.str "Route not found"),
        ("availableRoutes", JsonValue.strings ["/", "/secret"])] ∧
    (app ba env now req).res.field "error" = some (JsonValue.str "Route not found") ∧
    (app ba env now req).res.field "availableRoutes" =
      some (JsonValue.strings ["/", "/secret"]) ∧
    (app ba env now req).trace = [HandlerId.notFound] ∧
    HandlerId.publicRoute ∉ (app ba env now req).trace ∧
    HandlerId.authenticate ∉ (app ba env now req).trace ∧
    HandlerId.secretRoute ∉ (app ba env now req).trace := by
  have h : ¬ (req.method = "GET" ∧ (req.path = "/" ∨ req.path = "/secret")) := by
    rintro ⟨_, hp | hp⟩
    · exact h1 hp
    · exact h2 hp
  rw [app_fallback ba env now req h]
  refine ⟨rfl, rfl, by decide, by decide, rfl, by decide, by decide, by decide⟩

/-- Witness of C4: a POST to `/nonexistent` carrying valid credentials. -/
theorem unknown_path_not_found_witness :
    (app basicAuth ⟨some "admin", some "pw", none⟩ "t"
      ⟨"POST", "/nonexistent", some "Basic YWRtaW46cHc="⟩).res.statusCode = 404 :=
  (unknown_path_not_found basicAuth ⟨some "admin", some "pw", none⟩ "t"
    ⟨"POST", "/nonexistent", some "Basic YWRtaW46cHc="⟩ (by decide) (by decide)).1

/-- C5: a GET request to `/`, whatever its headers and whatever the configuration, gets
status 200 with `message` "Hello, world!", `status` "running" and a `timestamp`; only the
public handler runs, so the outcome is the same for every parser, configuration and
`Authorization` header. -/
theorem public_route_response (ba : Request → Option Credentials) (env : Env)
    (now : String) (req : Request) (hm : req.method = "GET") (hp : req.path = "/") :
    (app ba env now req).res.statusCode = 200 ∧
    (app ba env now req).res.body =
      some [("message", JsonValue.str "Hello, world!"),
        ("timestamp", JsonValue.str now),
        ("status", JsonValue.str "running")] ∧
    (app ba env now req).res.field "message" = some (JsonValue.str "Hello, world!") ∧
    (app ba env now req).res.field "status" = some (JsonValue.str "running") ∧
    (app ba env now req).res.field "timestamp" = some (JsonValue.str now) ∧
    (app ba env now req).trace = [HandlerId.publicRoute] ∧
    HandlerId.authenticate ∉ (app ba env now req).trace ∧
    (∀ (ba' : Request → Option Credentials) (env' : Env) (header : Option String),
      app ba' env' now ⟨"GET", "/", header⟩ = app ba env now req) := by
  rw [app_public ba env now req hm hp]
  refine ⟨rfl, rfl, ?_, ?_, ?_, rfl, by simp, ?_⟩
  · simp [publicResponse, Res.field, List.lookup]
  · simp [publicResponse, Res.field, List.lookup]
  · simp [publicResponse, Res.field, List.lookup]
  · intro ba' env' header
    exact app_public ba' env' now ⟨"GET", "/", header⟩ rfl rfl

/-- Witness of C5: a GET to `/` with a malformed header and no credentials configured. -/
theorem public_route_response_witness :
    (app basicAuth ⟨none, none, none⟩ "t" ⟨"GET", "/", some "Basic ???"⟩).res.statusCode =
      200 :=
  (public_route_response basicAuth ⟨none, none, none⟩ "t" ⟨"GET", "/", some "Basic ???"⟩
    rfl rfl).1

/-- C6: for every username without a colon and every password, colons included, the
header `Basic base64(username:password)` built as in `test.js` is parsed as `name` equal to
the username and `pass` equal to the password, the payload being split at its first colon;
and when these are the configured credentials, GET `/secret` with this header is accepted
with status 200. -/
theorem credentials_round_trip (env : Env) (now method path username password : String)
    (h : ':' ∉ username.toList) :
    basicAuth ⟨method, path, some (authorizationHeader username password)⟩ =
      some ⟨username, password⟩ ∧
    (env.APP_USERNAME = some username → env.APP_PASSWORD = some password →
      (app basicAuth env now
        ⟨"GET", "/secret", some (authorizationHeader username password)⟩).res.statusCode =
          200 ∧
      (app basicAuth env now
        ⟨"GET", "/secret", some (authorizationHeader username password)⟩).trace =
          [HandlerId.authenticate, HandlerId.secretRoute]) := by
  refine ⟨basicAuth_authorizationHeader method path username password h, ?_⟩
  intro hu hp
  have hc := basicAuth_authorizationHeader "GET" "/secret" username password h
  have hn : authenticate basicAuth env
      ⟨"GET", "/secret", some (authorizationHeader username password)⟩ Res.fresh =
      Step.next Res.fresh :=
    (authenticate_next_iff basicAuth env _ Res.fresh).2 ⟨⟨username, password⟩, hc, hu, hp⟩
  rw [app_secret basicAuth env now _ rfl rfl, hn]
  exact ⟨rfl, rfl⟩

/-- Witness of C6: a password with two colons and a non-ASCII character. -/
theorem credentials_round_trip_witness :
    basicAuth ⟨"GET", "/secret", some (authorizationHeader "admin" "p:q:é")⟩ =
      some ⟨"admin", "p:q:é"⟩ :=
  (credentials_round_trip ⟨some "admin", some "p:q:é", none⟩ "t" "GET" "/secret"
    "admin" "p:q:é" (by decide)).1

/-- C7: when `APP_USERNAME` or `APP_PASSWORD` is unset, the gate rejects whatever the
parser returned, and every GET request to `/secret` gets the 401 response, only the gate
having run. -/
theorem missing_configuration_rejects (ba : Request → Option Credentials) (env : Env)
    (now : String) (req : Request)
    (hcfg : env.APP_USERNAME = none ∨ env.APP_PASSWORD = none)
    (hm : req.method = "GET") (hp : req.path = "/secret") :
    (∀ res : Res, authenticate ba env req res = Step.sent (unauthorized res)) ∧
    (app ba env now req).trace = [HandlerId.authenticate] ∧
    (app ba env now req).res.statusCode = 401 ∧
    (app ba env now req).res.headers =
      [("WWW-Authenticate", "Basic realm=\"Secret Area\"")] ∧
    (app ba env now req).res.body =
      some [("error",
        JsonValue.str "Authentication required. Please provide valid credentials.")] := by
  have hrej : ∀ res : Res, authenticate ba env req res = Step.sent (unauthorized res) := by
    intro res
    rcases authenticate_cases ba env req res with h | h
    · exfalso
      obtain ⟨c, _, hu, hpw⟩ := (authenticate_next_iff ba env req res).1 h
      rcases hcfg with hn | hn
      · rw [hn] at hu
        cases hu
      · rw [hn] at hpw
        cases hpw
    · exact h
  have happ : app ba env now req = ⟨[HandlerId.authenticate], unauthorizedResponse⟩ := by
    rw [app_secret ba env now req hm hp, hrej Res.fresh, unauthorized_fresh]
  rw [happ]
  exact ⟨hrej, rfl, rfl, rfl, rfl⟩

/-- Witness of C7: no expected password, and a header that encodes `undefined:undefined`. -/
theorem missing_configuration_rejects_witness :
    (app basicAuth ⟨some "admin", none, none⟩ "t"
      ⟨"GET", "/secret", some "Basic dW5kZWZpbmVkOnVuZGVmaW5lZA=="⟩).res.statusCode = 401 :=
  (missing_configuration_rejects basicAuth ⟨some "admin", none, none⟩ "t"
    ⟨"GET", "/secret", some "Basic dW5kZWZpbmVkOnVuZGVmaW5lZA=="⟩ (Or.inr rfl) rfl rfl).2.2.1

/-- C8: every request is answered, and by one handler chosen in the order GET `/`, GET
`/secret`, fallback: the handlers that run are the public handler alone, or the gate alone
(it wrote the 401), or the gate followed by the secret handler (the gate called `next`),
or the fallback alone. A request to `/` or `/secret` whose method is not GET gets the
fallback's 404 "Route not found", the gate is not run, and the status is not 405. -/
theorem routing_precedence (ba : Request → Option Credentials) (env : Env) (now : String)
    (req : Request) :
    (app ba env now req).res.body ≠ none ∧
    (req.method = "GET" → req.path = "/" →
      (app ba env now req).trace = [HandlerId.publicRoute]) ∧
    (req.method = "GET" → req.path = "/secret" →
      ((authenticate ba env req Res.fresh).isSent = true →
        (app ba env now req).trace = [HandlerId.authenticate]) ∧
      ((authenticate ba env req Res.fresh).isSent = false →
        (app ba env now req).trace = [HandlerId.authenticate, HandlerId.secretRoute])) ∧
    (¬ (req.method = "GET" ∧ (req.path = "/" ∨ req.path = "/secret")) →
      (app ba env now req).trace = [HandlerId.notFound]) ∧
    (req.method ≠ "GET" → req.path = "/" ∨ req.path = "/secret" →
      (app ba env now req).trace = [HandlerId.notFound] ∧
      HandlerId.authenticate ∉ (app ba env now req).trace ∧
      (app ba env now req).res.statusCode = 404 ∧
      (app ba env now req).res.statusCode ≠ 405 ∧
      (app ba env now req).res.field "error" = some (JsonValue.str "Route not found")) := by
  have hsec : req.method = "GET" → req.path = "/secret" →
      ((authenticate ba env req Res.fresh).isSent = true →
        app ba env now req = ⟨[HandlerId.authenticate], unauthorizedResponse⟩) ∧
      ((authenticate ba env req Res.fresh).isSent = false →
        app ba env now req = ⟨[HandlerId.authenticate, HandlerId.secretRoute],
          Res.fresh.json [("message",
              JsonValue.str (orDefault env.SECRET_MESSAGE "Default secret message")),
            ("timestamp", JsonValue.str now),
            ("authenticated", JsonValue.bool true)]⟩) := by
    intro hm hp
    rw [app_secret ba env now req hm hp]
    rcases authenticate_cases ba env req Res.fresh with h | h
    · rw [h]
      exact ⟨fun x => (by cases x), fun _ => rfl⟩
    · rw [h, unauthorized_fresh]
      exact ⟨fun _ => rfl, fun x => (by cases x)⟩
  refine ⟨?_, ?_, ?_, ?_, ?_⟩
  · by_cases h : req.method = "GET" ∧ (req.path = "/" ∨ req.path = "/secret")
    · obtain ⟨hm, hp | hp⟩ := h
      · rw [app_public ba env now req hm hp]
        simp [publicResponse]
      · cases hs : (authenticate ba env req Res.fresh).isSent with
        | true =>
          rw [(hsec hm hp).1 hs]
          simp [unauthorizedResponse]
        | false =>
          rw [(hsec hm hp).2 hs]
          simp [Res.json]
    · rw [app_fallback ba env now req h]
      simp [notFoundResponse]
  · intro hm hp
    rw [app_public ba env now req hm hp]
  · intro hm hp
    exact ⟨fun hs => by rw [(hsec hm hp).1 hs], fun hs => by rw [(hsec hm hp).2 hs]⟩
  · intro h
    rw [app_fallback ba env now req h]
  · intro hm _
    have h : ¬ (req.method = "GET" ∧ (req.path = "/" ∨ req.path = "/secret")) :=
      fun x => hm x.1
    rw [app_fallback ba env now req h]
    refine ⟨rfl, by simp, rfl, by decide, by decide⟩

/-- C9: for every request and configuration the response body does not have both `message`
and `error`, and a response with status 200 has a `timestamp`; the same holds for the body
written by the error handler, whatever the state of the response object it is given. -/
theorem response_envelope_invariant (ba : Request → Option Credentials) (env : Env)
    (now : String) (req : Request) (res : Res) :
    envelopeOk (app ba env now req).res ∧ envelopeOk (errorHandler res) ∧
    (errorHandler res).statusCode = 500 := by
  refine ⟨?_, ?_, rfl⟩
  · by_cases h : req.method = "GET" ∧ (req.path = "/" ∨ req.path = "/secret")
    · obtain ⟨hm, hp | hp⟩ := h
      · rw [app_public ba env now req hm hp]
        simp [envelopeOk, publicResponse, Res.field, List.lookup]
      · rw [app_secret ba env now req hm hp]
        rcases authenticate_cases ba env req Res.fresh with h | h
        · rw [h]
          simp [envelopeOk, Res.fresh, Res.json, Res.field, List.lookup]
        · rw [h, unauthorized_fresh]
          simp [envelopeOk, unauthorizedResponse, Res.field, List.lookup]
    · rw [app_fallback ba env now req h]
      simp [envelopeOk, notFoundResponse, Res.field, List.lookup]
  · simp [envelopeOk, errorHandler, Res.status, Res.json, Res.field, List.lookup]

/-- C10: the probe exits with code 0 if and only if its request got a response with
status 200; for any other status, for a connection error and for a timeout it exits with
code 1; it always exits, and it issues one request. -/
theorem healthcheck_exit_code (e : ProbeEvent) :
    ((healthcheck e).exitCode = some 0 ↔ e = ProbeEvent.response 200) ∧
    (e ≠ ProbeEvent.response 200 → (healthcheck e).exitCode = some 1) ∧
    ((healthcheck e).exitCode = some 0 ∨ (healthcheck e).exitCode = some 1) ∧
    (healthcheck e).requests = 1 := by
  cases e with
  | response statusCode =>
    by_cases h : statusCode = 200
    · subst h
      simp [healthcheck, ProbeState.start, ProbeState.onEvent]
    · simp [healthcheck, ProbeState.start, ProbeState.onEvent, h]
  | error => simp [healthcheck, ProbeState.start, ProbeState.onEvent]
  | timeout => simp [healthcheck, ProbeState.start, ProbeState.onEvent]

end DockerizedService
